import Mathlib

/-!
Verification development for `streamlit_app.py`: a shallow embedding of the
data-loading and JSON-field-extraction routines of the dashboard script,
together with proofs of the spec's testable properties.

Python scalar values that can appear in a pandas cell, or be produced by
`json.loads`, are modelled by `PyValue`; Python exceptions relevant to the
script by `PyExc`; a function that may raise is modelled in the
`Except PyExc` monad.
-/

/-- A dynamically typed Python value as it appears in a dataframe cell or as
the result of `json.loads`: `none` is Python `None` (also the decoding of
JSON `null`), `nan` is the float NaN that pandas uses for missing cells
(non-finite floats produced by the lenient `NaN`/`Infinity` JSON literals
are modelled by the same constructor, as no modelled operation separates
them), `num` covers Python ints and finite floats as exact rationals,
`timestamp s` is the pandas datetime value obtained by parsing the text
`s`, and `dict` is a Python dict with string keys. -/
inductive PyValue : Type where
  | none : PyValue
  | nan : PyValue
  | bool (b : Bool) : PyValue
  | num (q : Rat) : PyValue
  | str (s : String) : PyValue
  | timestamp (s : String) : PyValue
  | list (xs : List PyValue) : PyValue
  | dict (fields : List (String × PyValue)) : PyValue

/-- The Python exceptions the script can meet: the three caught by the
extraction helpers, the two caught by `load_data`, and the ones `pd.read_csv`
can additionally raise that `load_data` does not catch. -/
inductive PyExc : Type where
  | jsonDecodeError : PyExc
  | typeError : PyExc
  | attributeError : PyExc
  | fileNotFoundError : PyExc
  | parserError (msg : String) : PyExc
  | unicodeDecodeError : PyExc
  | emptyDataError : PyExc
deriving DecidableEq

/-- The opening brace character. -/
def lbrace : Char := Char.ofNat 123

/-- The closing brace character. -/
def rbrace : Char := Char.ofNat 125

/-- Drop leading JSON whitespace. -/
def skipWs : List Char → List Char
  | [] => []
  | c :: cs => if c = ' ' ∨ c = '\t' ∨ c = '\n' ∨ c = '\r' then skipWs cs else c :: cs

/-- Value of a hex digit, if the character is one. -/
def hexVal (c : Char) : Option Nat :=
  if '0' ≤ c ∧ c ≤ '9' then some (c.toNat - '0'.toNat)
  else if 'a' ≤ c ∧ c ≤ 'f' then some (c.toNat - 'a'.toNat + 10)
  else if 'A' ≤ c ∧ c ≤ 'F' then some (c.toNat - 'A'.toNat + 10)
  else Option.none

/-- Decoding of a single-character JSON string escape. -/
def escChar (c : Char) : Option Char :=
  if c = '"' ∨ c = '\\' ∨ c = '/' then some c
  else if c = 'b' then some (Char.ofNat 8)
  else if c = 'f' then some (Char.ofNat 12)
  else if c = 'n' then some '\n'
  else if c = 'r' then some '\r'
  else if c = 't' then some '\t'
  else Option.none

/-- Parse the body of a JSON string after the opening quote, up to and
including the closing quote; returns the decoded characters and the rest of
the input. Unescaped control characters are rejected as `json.loads` does in
its default strict mode; a `\uXXXX` escape becomes the code point it names
(surrogate pairing is not modelled). -/
def parseStringBody (fuel : Nat) (cs : List Char) : Option (List Char × List Char) :=
  match fuel, cs with
  | 0, _ => Option.none
  | _, [] => Option.none
  | fuel + 1, c :: cs =>
    if c = '"' then some ([], cs)
    else if c = '\\' then
      match cs with
      | [] => Option.none
      | e :: cs2 =>
        if e = 'u' then
          match cs2 with
          | h1 :: h2 :: h3 :: h4 :: cs3 =>
            match hexVal h1, hexVal h2, hexVal h3, hexVal h4 with
            | some a, some b, some c2, some d =>
              match parseStringBody fuel cs3 with
              | some (rest, rem) => some (Char.ofNat (((a * 16 + b) * 16 + c2) * 16 + d) :: rest, rem)
              | Option.none => Option.none
            | _, _, _, _ => Option.none
          | _ => Option.none
        else
          match escChar e with
          | some ec =>
            match parseStringBody fuel cs2 with
            | some (rest, rem) => some (ec :: rest, rem)
            | Option.none => Option.none
          | Option.none => Option.none
    else if c.toNat < 32 then Option.none
    else
      match parseStringBody fuel cs with
      | some (rest, rem) => some (c :: rest, rem)
      | Option.none => Option.none

/-- Split a run of leading decimal digits from the input. -/
def takeDigits : List Char → List Char × List Char
  | [] => ([], [])
  | c :: cs =>
    if c.isDigit then
      let p := takeDigits cs
      (c :: p.1, p.2)
    else ([], c :: cs)

/-- Numeric value of a digit run. -/
def digitsToNat (ds : List Char) : Nat :=
  ds.foldl (fun acc c => acc * 10 + (c.toNat - '0'.toNat)) 0

/-- Strip a literal keyword from the front of the input. -/
def stripLit : List Char → List Char → Option (List Char)
  | [], cs => some cs
  | _ :: _, [] => Option.none
  | l :: ls, c :: cs => if c = l then stripLit ls cs else Option.none

/-- The rational `m * 10 ^ scale`, negated when `neg` is set: the exact value
of a decoded JSON number with integer significand `m`. -/
def ratOfParts (neg : Bool) (m : Nat) (scale : Int) : Rat :=
  let sm : Int := if neg then - (m : Int) else (m : Int)
  if 0 ≤ scale then mkRat (sm * ((10 ^ scale.toNat : Nat) : Int)) 1
  else mkRat sm (10 ^ (- scale).toNat)

/-- Parse the fractional part of a JSON number (empty when no dot). -/
def parseFrac : List Char → Option (List Char × List Char)
  | '.' :: r =>
    match takeDigits r with
    | ([], _) => Option.none
    | (ds, r2) => some (ds, r2)
  | cs => some ([], cs)

/-- Parse the exponent part of a JSON number (0 when absent). -/
def parseExp : List Char → Option (Int × List Char)
  | [] => some (0, [])
  | c :: r =>
    if c = 'e' ∨ c = 'E' then
      let sr : Int × List Char :=
        match r with
        | '+' :: r2 => (1, r2)
        | '-' :: r2 => (-1, r2)
        | _ => (1, r)
      match takeDigits sr.2 with
      | ([], _) => Option.none
      | (ds, r2) => some (sr.1 * (digitsToNat ds : Int), r2)
    else some (0, c :: r)

/-- Whether a JSON integer part has a forbidden leading zero. -/
def leadingZeroBad : List Char → Bool
  | '0' :: _ :: _ => true
  | _ => false

/-- Parse a JSON number per RFC 8259 grammar, as `json.loads` accepts it,
returning its exact rational value. -/
def parseNumber (cs : List Char) : Option (PyValue × List Char) :=
  let sc : Bool × List Char :=
    match cs with
    | '-' :: r => (true, r)
    | _ => (false, cs)
  match takeDigits sc.2 with
  | ([], _) => Option.none
  | (ds, r1) =>
    if leadingZeroBad ds then Option.none
    else
      match parseFrac r1 with
      | Option.none => Option.none
      | some (fds, r2) =>
        match parseExp r2 with
        | Option.none => Option.none
        | some (e, r3) =>
          some (.num (ratOfParts sc.1 (digitsToNat (ds ++ fds)) (e - (fds.length : Int))), r3)

mutual

/-- Parse one JSON value (after optional leading whitespace), as the
recursive-descent scanner of `json.loads` does: strings, objects, arrays,
the literals `null`, `true`, `false` and the lenient non-finite float
literals `NaN`, `Infinity`, `-Infinity`, and numbers. The fuel argument
only bounds recursion depth; `jsonParse` supplies more fuel than any input
of its length can consume. -/
def parseJValue : Nat → List Char → Option (PyValue × List Char)
  | 0, _ => Option.none
  | fuel + 1, cs =>
    match skipWs cs with
    | [] => Option.none
    | c :: r =>
      if c = '"' then
        match parseStringBody (r.length + 1) r with
        | some (sc, rem) => some (.str (String.mk sc), rem)
        | Option.none => Option.none
      else if c = lbrace then
        match skipWs r with
        | c2 :: r2 =>
          if c2 = rbrace then some (.dict [], r2)
          else
            match parseMembers fuel (c2 :: r2) with
            | some (flds, rem) => some (.dict flds, rem)
            | Option.none => Option.none
        | [] => Option.none
      else if c = '[' then
        match skipWs r with
        | c2 :: r2 =>
          if c2 = ']' then some (.list [], r2)
          else
            match parseItems fuel (c2 :: r2) with
            | some (xs, rem) => some (.list xs, rem)
            | Option.none => Option.none
        | [] => Option.none
      else
        match stripLit ("null".data) (c :: r) with
        | some rem => some (.none, rem)
        | Option.none =>
        match stripLit ("true".data) (c :: r) with
        | some rem => some (.bool true, rem)
        | Option.none =>
        match stripLit ("false".data) (c :: r) with
        | some rem => some (.bool false, rem)
        | Option.none =>
        match stripLit ("NaN".data) (c :: r) with
        | some rem => some (.nan, rem)
        | Option.none =>
        match stripLit ("Infinity".data) (c :: r) with
        | some rem => some (.nan, rem)
        | Option.none =>
        match stripLit ("-Infinity".data) (c :: r) with
        | some rem => some (.nan, rem)
        | Option.none => parseNumber (c :: r)

/-- Parse the members of a JSON object after its opening brace, when at
least one member is present, up to and including the closing brace. -/
def parseMembers : Nat → List Char → Option (List (String × PyValue) × List Char)
  | 0, _ => Option.none
  | fuel + 1, cs =>
    match skipWs cs with
    | '"' :: r =>
      match parseStringBody (r.length + 1) r with
      | some (k, r2) =>
        match skipWs r2 with
        | ':' :: r3 =>
          match parseJValue fuel r3 with
          | some (v, r4) =>
            match skipWs r4 with
            | ',' :: r5 =>
              match parseMembers fuel r5 with
              | some (flds, r6) => some ((String.mk k, v) :: flds, r6)
              | Option.none => Option.none
            | c :: r5 => if c = rbrace then some ([(String.mk k, v)], r5) else Option.none
            | [] => Option.none
          | Option.none => Option.none
        | _ => Option.none
      | Option.none => Option.none
    | _ => Option.none

/-- Parse the items of a JSON array after its opening bracket, when at
least one item is present, up to and including the closing bracket. -/
def parseItems : Nat → List Char → Option (List PyValue × List Char)
  | 0, _ => Option.none
  | fuel + 1, cs =>
    match parseJValue fuel cs with
    | some (v, r) =>
      match skipWs r with
      | ',' :: r2 =>
        match parseItems fuel r2 with
        | some (xs, r3) => some (v :: xs, r3)
        | Option.none => Option.none
      | ']' :: r2 => some ([v], r2)
      | _ => Option.none
    | Option.none => Option.none

end

/-- Decode a complete JSON document as `json.loads` does: one value, with
surrounding whitespace allowed, and nothing after it. `Option.none` is a
decode failure (a `json.JSONDecodeError` in Python). -/
def jsonParse (s : String) : Option PyValue :=
  match parseJValue (s.data.length + 8) s.data with
  | some (v, rest) => if skipWs rest = [] then some v else Option.none
  | Option.none => Option.none

mutual

/-- Boolean structural equality on `PyValue`, with a fuel argument that
bounds nesting depth (so that recursion is structural and the function
evaluates inside the kernel). -/
def pyBeq : Nat → PyValue → PyValue → Bool
  | 0, _, _ => false
  | _ + 1, .none, .none => true
  | _ + 1, .nan, .nan => true
  | _ + 1, .bool a, .bool b => a == b
  | _ + 1, .num a, .num b => a == b
  | _ + 1, .str a, .str b => a == b
  | _ + 1, .timestamp a, .timestamp b => a == b
  | fuel + 1, .list xs, .list ys => pyBeqList fuel xs ys
  | fuel + 1, .dict xs, .dict ys => pyBeqFields fuel xs ys
  | _ + 1, _, _ => false

/-- Boolean equality on lists of `PyValue`. -/
def pyBeqList : Nat → List PyValue → List PyValue → Bool
  | 0, _, _ => false
  | _ + 1, [], [] => true
  | fuel + 1, x :: xs, y :: ys => pyBeq fuel x y && pyBeqList fuel xs ys
  | _ + 1, _, _ => false

/-- Boolean equality on association lists of `PyValue`. -/
def pyBeqFields : Nat → List (String × PyValue) → List (String × PyValue) → Bool
  | 0, _, _ => false
  | _ + 1, [], [] => true
  | fuel + 1, (k, v) :: ps, (k2, v2) :: qs => (k == k2 && pyBeq fuel v v2) && pyBeqFields fuel ps qs
  | _ + 1, _, _ => false

end

/-- Boolean equality check on extraction results (exception or value). -/
def exceptPyBeq (n : Nat) : Except PyExc PyValue → Except PyExc PyValue → Bool
  | .ok a, .ok b => pyBeq n a b
  | .error e, .error e2 => decide (e = e2)
  | _, _ => false

/-- Boolean equality check on decoded optional values. -/
def optionPyBeq (n : Nat) : Option PyValue → Option PyValue → Bool
  | some a, some b => pyBeq n a b
  | Option.none, Option.none => true
  | _, _ => false

/-- `json.loads(value)`: decodes the text of a string argument; any
non-string cell value (Python `None`, the float NaN that pandas stores for
a missing cell, a number, a bool, ...) raises `TypeError`, and text that is
not valid JSON raises `json.JSONDecodeError`. -/
def json_loads (value : PyValue) : Except PyExc PyValue :=
  match value with
  | .str s =>
    match jsonParse s with
    | some v => .ok v
    | Option.none => .error .jsonDecodeError
  | _ => .error .typeError

/-- Lookup in a decoded JSON object. A Python dict built by `json.loads`
keeps the last binding of a duplicated key, so the fold keeps the last
match. -/
def assocLast (flds : List (String × PyValue)) (key : String) : Option PyValue :=
  flds.foldl (fun acc p => if p.1 = key then some p.2 else acc) Option.none

/-- `obj.get(key, dflt)`: defined on dicts, where it returns the stored
value when the key is present and `dflt` otherwise; any non-dict decoded
value (a bare number, string, list, bool, null) has no `get` attribute and
raises `AttributeError`. -/
def pyGet (obj : PyValue) (key : String) (dflt : PyValue) : Except PyExc PyValue :=
  match obj with
  | .dict flds => .ok ((assocLast flds key).getD dflt)
  | _ => .error .attributeError

/-- The exception classes named in the `except` clause of both extraction
helpers: `(json.JSONDecodeError, TypeError, AttributeError)`. -/
def jsonCaught (e : PyExc) : Bool :=
  match e with
  | .jsonDecodeError => true
  | .typeError => true
  | .attributeError => true
  | _ => false

/-- A Python `try`/`except` block returning `handler` when the body raises
an exception matched by `caught`, and re-raising otherwise. -/
def tryExcept (body : Except PyExc PyValue) (caught : PyExc → Bool) (handler : PyValue) :
    Except PyExc PyValue :=
  match body with
  | .ok v => .ok v
  | .error e => if caught e then .ok handler else .error e

/-- The body of both try blocks: `json_data = json.loads(value)` then
`json_data.get(field, dflt)`, with an exception from either step
propagating out of the body. -/
def extractBody (field : String) (dflt : PyValue) (value : PyValue) : Except PyExc PyValue :=
  match json_loads value with
  | .error e => .error e
  | .ok json_data => pyGet json_data field dflt

/-- `parse_json_column(value)` from the script: try
`json.loads(value).get("total_balance")` and fall back to `None` on
`json.JSONDecodeError`, `TypeError` or `AttributeError`. -/
def parse_json_column (value : PyValue) : Except PyExc PyValue :=
  tryExcept (extractBody "total_balance" PyValue.none value) jsonCaught PyValue.none

/-- `parse_unnamed_7(value)` from the script: try
`json.loads(value).get("card_acceptor", "Unknown")` and fall back to
`"Unknown"` on `json.JSONDecodeError`, `TypeError` or `AttributeError`. -/
def parse_unnamed_7 (value : PyValue) : Except PyExc PyValue :=
  tryExcept (extractBody "card_acceptor" (PyValue.str "Unknown") value) jsonCaught
    (PyValue.str "Unknown")

/-- The cell conditions under which the spec demands the default: the cell
does not decode (invalid JSON, or a non-string cell such as a missing/NaN
one), or decodes to a non-key-addressable value, or decodes to an object
lacking the field. -/
def fieldMissing (field : String) (v : PyValue) : Bool :=
  match json_loads v with
  | .ok (PyValue.dict flds) => (assocLast flds field).isNone
  | .ok _ => true
  | .error _ => true

/-- The decoded value of the target field of a cell, when the cell decodes
to an object that contains it. -/
def decodedField (field : String) (v : PyValue) : Option PyValue :=
  match json_loads v with
  | .ok (PyValue.dict flds) => assocLast flds field
  | _ => Option.none

/-- The in-memory table: named columns in order, each holding one value per
row. This is the Table of the spec's data model (a pandas DataFrame in the
script). -/
structure DataFrame : Type where
  cols : List (String × List PyValue)

/-- First association of a column name (pandas column labels are unique in
this dataset; on a duplicated label both lookup and assignment act on the
first/every occurrence consistently below). -/
def colLookup (name : String) : List (String × List PyValue) → Option (List PyValue)
  | [] => Option.none
  | p :: rest => if p.1 = name then some p.2 else colLookup name rest

/-- The column labels, in table order (`df.columns`). -/
def DataFrame.colNames (df : DataFrame) : List String := df.cols.map Prod.fst

/-- The values of a named column (`df[name]` as a read). -/
def DataFrame.getCol (df : DataFrame) (name : String) : Option (List PyValue) :=
  colLookup name df.cols

/-- `name in df.columns`. -/
def DataFrame.hasCol (df : DataFrame) (name : String) : Bool :=
  (df.getCol name).isSome

/-- `df[name] = vals`: overwrite the column in place when the label exists,
otherwise append a new column at the end. -/
def DataFrame.setCol (df : DataFrame) (name : String) (vals : List PyValue) : DataFrame :=
  if df.hasCol name then
    ⟨df.cols.map (fun p => if p.1 = name then (p.1, vals) else p)⟩
  else ⟨df.cols ++ [(name, vals)]⟩

/-- Number of rows of the table. -/
def DataFrame.nRows (df : DataFrame) : Nat :=
  match df.cols with
  | [] => 0
  | c :: _ => c.2.length

/-- The table is rectangular: every column has one entry per row. -/
def DataFrame.rectangular (df : DataFrame) : Bool :=
  df.cols.all (fun p => p.2.length == df.nRows)

/-- Apply a possibly-raising per-cell function to every cell of a series in
row order, propagating the first exception, as `Series.apply` does. -/
def exceptMapM (f : PyValue → Except PyExc PyValue) : List PyValue → Except PyExc (List PyValue)
  | [] => .ok []
  | x :: xs =>
    match f x with
    | .error e => .error e
    | .ok y =>
      match exceptMapM f xs with
      | .error e => .error e
      | .ok ys => .ok (y :: ys)

/-- The extraction pattern of the script:
`if src in df.columns: df[dst] = df[src].apply(f)`. -/
def applyExtract (df : DataFrame) (src dst : String) (f : PyValue → Except PyExc PyValue) :
    Except PyExc DataFrame :=
  if df.hasCol src then
    match exceptMapM f ((df.getCol src).getD []) with
    | .error e => .error e
    | .ok vals => .ok (df.setCol dst vals)
  else .ok df

/-- Module-level extraction of `total_balance` from
`POST_TRANSACTION_ACCOUNT_BALANCES` (lines 49-50 of the script). -/
def extractTotalBalance (df : DataFrame) : Except PyExc DataFrame :=
  applyExtract df "POST_TRANSACTION_ACCOUNT_BALANCES" "total_balance" parse_json_column

/-- Module-level extraction of `card_acceptor` from `Unnamed: 7`
(lines 53-54 of the script). -/
def extractCardAcceptor (df : DataFrame) : Except PyExc DataFrame :=
  applyExtract df "Unnamed: 7" "card_acceptor" parse_unnamed_7

/-- The input file as the loader can encounter it: absent, present but not
decodable in the expected text encoding, or decodable text. -/
inductive FileData : Type where
  | missing : FileData
  | badEncoding : FileData
  | text (content : String) : FileData

/-- Read one CSV field that does not start with a quote: everything up to
the next delimiter, record end, or end of input. Returns the field, the
separator that ended it (`,` or `\n`; `Option.none` at end of input) and
the rest. -/
def csvUnquoted (acc : List Char) : List Char → String × Option Char × List Char
  | [] => (String.mk acc.reverse, Option.none, [])
  | '\r' :: '\n' :: cs => (String.mk acc.reverse, some '\n', cs)
  | c :: cs =>
    if c = ',' ∨ c = '\n' then (String.mk acc.reverse, some c, cs)
    else csvUnquoted (c :: acc) cs

/-- Read the remainder of a quoted CSV field (after the opening quote),
with `""` as an escaped quote, in the minimal-quoting convention
(`csv.QUOTE_MINIMAL`): delimiters and newlines may appear inside. A field
whose closing quote never comes, or is followed by stray text, is a
malformed file (pandas `ParserError`). -/
def csvQuoted (acc : List Char) : List Char → Except PyExc (String × Option Char × List Char)
  | [] => .error (.parserError "EOF inside string")
  | '"' :: '"' :: cs => csvQuoted ('"' :: acc) cs
  | '"' :: [] => .ok (String.mk acc.reverse, Option.none, [])
  | '"' :: '\r' :: '\n' :: cs => .ok (String.mk acc.reverse, some '\n', cs)
  | '"' :: c :: cs =>
    if c = ',' ∨ c = '\n' then .ok (String.mk acc.reverse, some c, cs)
    else .error (.parserError "unexpected character after closing quote")
  | c :: cs => csvQuoted (c :: acc) cs

/-- Read one CSV record: fields separated by `,`, ended by a record
separator or the end of input. -/
def csvRecord : Nat → List Char → Except PyExc (List String × List Char)
  | 0, _ => .error (.parserError "record fuel exhausted")
  | fuel + 1, cs =>
    let step : Except PyExc (String × Option Char × List Char) :=
      match cs with
      | '"' :: r => csvQuoted [] r
      | _ => .ok (csvUnquoted [] cs)
    match step with
    | .error e => .error e
    | .ok (f, sep, rest) =>
      if sep = some ',' then
        match csvRecord fuel rest with
        | .error e => .error e
        | .ok (fs, rest2) => .ok (f :: fs, rest2)
      else .ok ([f], rest)

/-- Read all CSV records of a file. -/
def csvRecords : Nat → List Char → Except PyExc (List (List String))
  | 0, _ => .error (.parserError "file fuel exhausted")
  | fuel + 1, cs =>
    match cs with
    | [] => .ok []
    | _ =>
      match csvRecord (cs.length + 2) cs with
      | .error e => .error e
      | .ok (r, rest) =>
        match csvRecords fuel rest with
        | .error e => .error e
        | .ok rs => .ok (r :: rs)

/-- A blank line, which pandas skips (`skip_blank_lines` default). -/
def blankRecord (r : List String) : Bool := r == [""]

/-- Table assembly: one column per header field, in header order, each
holding the corresponding field of every kept data row. -/
def buildDf (hdr : List String) (rows : List (List String)) : DataFrame :=
  ⟨hdr.enum.map (fun p => (p.2, rows.map (fun r => PyValue.str (r.getD p.1 ""))))⟩

/-- Modelled from the spec: `pd.read_csv(path, on_bad_lines='skip',
engine='python', quoting=csv.QUOTE_MINIMAL)` — the pandas CSV engine is
external to this repository, so its behavior is taken from spec section
4.1: the first record is the header naming the columns verbatim; data rows
that do not conform to the header's column count or to the quoting rules
are skipped individually; a missing file raises `FileNotFoundError`; a file
whose bytes do not decode raises `UnicodeDecodeError`; a file whose
delimited-text structure cannot be parsed at all raises
`pandas.errors.ParserError`; a file with no content raises
`EmptyDataError`. Cell values are modelled as their verbatim text (pandas
dtype inference is outside the claims modelled here). -/
def read_csv : FileData → Except PyExc DataFrame
  | .missing => .error .fileNotFoundError
  | .badEncoding => .error .unicodeDecodeError
  | .text s =>
    match csvRecords (s.data.length + 2) s.data with
    | .error e => .error e
    | .ok recs =>
      match recs.filter (fun r => ! blankRecord r) with
      | [] => .error .emptyDataError
      | hdr :: rows => .ok (buildDf hdr (rows.filter (fun r => r.length == hdr.length)))

/-- `load_data()` from the script: read the CSV and return the dataframe;
on `FileNotFoundError` report "CSV file not found." and return `None`; on
`pandas.errors.ParserError` report the cause and return `None`. Any other
exception is not caught. The second component collects the `st.error`
diagnostics shown to the user. -/
def load_data (fd : FileData) : Except PyExc (Option DataFrame × List String) :=
  match read_csv fd with
  | .ok df => .ok (some df, [])
  | .error .fileNotFoundError => .ok (Option.none, ["CSV file not found."])
  | .error (.parserError m) => .ok (Option.none, ["ParserError: " ++ m])
  | .error e => .error e

/-- An ISO `YYYY-MM-DD` date literal, the format of the dataset's
`BOOKING_DATE` column. -/
def isDateLit (s : String) : Bool :=
  match s.data with
  | [y1, y2, y3, y4, d1, m1, m2, d2, a1, a2] =>
    y1.isDigit && y2.isDigit && y3.isDigit && y4.isDigit && d1 == '-' &&
      m1.isDigit && m2.isDigit && d2 == '-' && a1.isDigit && a2.isDigit
  | _ => false

/-- `pd.to_datetime` on one cell — pandas is external to this repository;
modelled on the dataset's date format: date text becomes the corresponding
datetime value (a value of a different kind than the source text), a
missing cell stays missing (`NaT`), an already-converted value is kept,
and anything unparseable raises. The raised class does not matter to the
script, whose `except Exception` catches everything. -/
def to_datetime_cell : PyValue → Except PyExc PyValue
  | .nan => .ok .nan
  | .timestamp s => .ok (.timestamp s)
  | .str s => if isDateLit s then .ok (.timestamp s) else .error .typeError
  | _ => .error .typeError

/-- The time-series section (lines 139-144): when `AMOUNT` and
`BOOKING_DATE` are both present, `df['BOOKING_DATE'] =
pd.to_datetime(df['BOOKING_DATE'])` inside `try`; when the conversion
raises, the assignment does not happen and the `except Exception` branch
only reports, leaving the table as it was. The subsequent plotting works on
a copy (`df.copy()`) and does not touch the table. -/
def timeSeriesStep (df : DataFrame) : DataFrame :=
  if df.hasCol "AMOUNT" && df.hasCol "BOOKING_DATE" then
    match exceptMapM to_datetime_cell ((df.getCol "BOOKING_DATE").getD []) with
    | .ok vals => df.setCol "BOOKING_DATE" vals
    | .error _ => df
  else df

/-- Python `x < 0` on a cell value: numbers compare numerically, booleans
are 0 or 1, `NaN < 0` is `False`, and a string or `None` compared with an
int raises `TypeError`. -/
def pyLtZero : PyValue → Except PyExc Bool
  | .num q => .ok (decide (q < 0))
  | .bool _ => .ok false
  | .nan => .ok false
  | _ => .error .typeError

/-- The lambda of line 184:
`lambda x: 'Debit (Negative)' if x < 0 else 'Credit (Positive)'`. -/
def amount_type_lambda (x : PyValue) : Except PyExc PyValue :=
  match pyLtZero x with
  | .error e => .error e
  | .ok b => .ok (.str (if b then "Debit (Negative)" else "Credit (Positive)"))

/-- The Amount_Type assignment of section 5 (lines 167, 184): when `AMOUNT`
is present, `df['Amount_Type'] = df['AMOUNT'].apply(lambda ...)`, not
wrapped in any `try`. -/
def amountTypeStep (df : DataFrame) : Except PyExc DataFrame :=
  applyExtract df "AMOUNT" "Amount_Type" amount_type_lambda

/-- All module-level mutations of the table after a successful load, in
program order: the two JSON extractions, the in-place `BOOKING_DATE`
datetime conversion, and the `Amount_Type` derivation. (Chart rendering
reads the table but never writes it.) -/
def transformPipeline (df : DataFrame) : Except PyExc DataFrame :=
  match extractTotalBalance df with
  | .error e => .error e
  | .ok df1 =>
    match extractCardAcceptor df1 with
    | .error e => .error e
    | .ok df2 => amountTypeStep (timeSeriesStep df2)

/-- The whole run: `df = load_data()`, then `if df is not None:` run the
transforms (and render), `else:` report "No data loaded. ..." — the
no-table case is a terminal display state, not an error. -/
def appRun (fd : FileData) : Except PyExc (Option DataFrame × List String) :=
  match load_data fd with
  | .error e => .error e
  | .ok (Option.none, msgs) =>
    .ok (Option.none, msgs ++ ["No data loaded. Please ensure the CSV file is in the directory and named correctly."])
  | .ok (some df, msgs) =>
    match transformPipeline df with
    | .error e => .error e
    | .ok df2 => .ok (some df2, msgs)

/-- Encoding of a table as a Python value, for executable equality checks. -/
def dfEncode (df : DataFrame) : PyValue :=
  .dict (df.cols.map (fun p => (p.1, PyValue.list p.2)))

/-- Executable equality check on loader results. -/
def exceptDfBeq (n : Nat) : Except PyExc DataFrame → Except PyExc DataFrame → Bool
  | .ok a, .ok b => pyBeq n (dfEncode a) (dfEncode b)
  | .error e, .error e2 => decide (e = e2)
  | _, _ => false

/-- Executable equality check on column reads. -/
def optionColBeq (n : Nat) : Option (List PyValue) → Option (List PyValue) → Bool
  | some a, some b => pyBeqList n a b
  | Option.none, Option.none => true
  | _, _ => false

/-- A one-row table with an amount and a date, exhibiting the in-place
`BOOKING_DATE` conversion. -/
def dfC6 : DataFrame :=
  ⟨[("AMOUNT", [PyValue.num 5]), ("BOOKING_DATE", [PyValue.str "2021-01-01"])]⟩

/-- `dfC6` after the module-level transforms: `BOOKING_DATE` now holds a
datetime value, no longer the source text. -/
def dfC6res : DataFrame :=
  ⟨[("AMOUNT", [PyValue.num 5]), ("BOOKING_DATE", [PyValue.timestamp "2021-01-01"]),
    ("Amount_Type", [PyValue.str "Credit (Positive)"])]⟩

/-- A two-row table with one JSON source column, for the frame property. -/
def dfW8 : DataFrame :=
  ⟨[("POST_TRANSACTION_ACCOUNT_BALANCES", [PyValue.str "not json", PyValue.nan])]⟩

/-- `dfW8` after the `total_balance` extraction. -/
def dfW8res : DataFrame :=
  ⟨[("POST_TRANSACTION_ACCOUNT_BALANCES", [PyValue.str "not json", PyValue.nan]),
    ("total_balance", [PyValue.none, PyValue.none])]⟩

/-- A one-row table with both JSON source columns, for determinism. -/
def dfW9 : DataFrame :=
  ⟨[("POST_TRANSACTION_ACCOUNT_BALANCES", [PyValue.str "x"]), ("Unnamed: 7", [PyValue.str "x"])]⟩

/-- `dfW9` after the `total_balance` extraction. -/
def dfW9a : DataFrame :=
  ⟨[("POST_TRANSACTION_ACCOUNT_BALANCES", [PyValue.str "x"]), ("Unnamed: 7", [PyValue.str "x"]),
    ("total_balance", [PyValue.none])]⟩

/-- `dfW9` after the `card_acceptor` extraction. -/
def dfW9b : DataFrame :=
  ⟨[("POST_TRANSACTION_ACCOUNT_BALANCES", [PyValue.str "x"]), ("Unnamed: 7", [PyValue.str "x"]),
    ("card_acceptor", [PyValue.str "Unknown"])]⟩

/-- A `true` answer from `pyBeq` (at any fuel) is sound: running out of fuel
only ever produces `false`. -/
theorem pyBeq_sound : ∀ n : Nat,
    (∀ a b : PyValue, pyBeq n a b = true → a = b) ∧
    (∀ xs ys : List PyValue, pyBeqList n xs ys = true → xs = ys) ∧
    (∀ ps qs : List (String × PyValue), pyBeqFields n ps qs = true → ps = qs) := by
  intro n
  induction n with
  | zero =>
    refine ⟨?_, ?_, ?_⟩ <;> intro a b h <;>
      simp only [pyBeq, pyBeqList, pyBeqFields] at h <;> exact absurd h (by simp)
  | succ m ih =>
    refine ⟨?_, ?_, ?_⟩
    · intro a b h
      cases a <;> cases b <;> simp_all [pyBeq]
      · exact ih.2.1 _ _ h
      · exact ih.2.2 _ _ h
    · intro xs ys h
      cases xs with
      | nil => cases ys <;> simp_all [pyBeqList]
      | cons x xs2 =>
        cases ys with
        | nil => simp_all [pyBeqList]
        | cons y ys2 =>
          simp only [pyBeqList, Bool.and_eq_true] at h
          simp [ih.1 _ _ h.1, ih.2.1 _ _ h.2]
    · intro ps qs h
      cases ps with
      | nil => cases qs <;> simp_all [pyBeqFields]
      | cons p ps2 =>
        cases qs with
        | nil => obtain ⟨k, v⟩ := p; simp_all [pyBeqFields]
        | cons q qs2 =>
          obtain ⟨k, v⟩ := p
          obtain ⟨k2, v2⟩ := q
          simp only [pyBeqFields, Bool.and_eq_true, beq_iff_eq] at h
          simp [h.1.1, ih.1 _ _ h.1.2, ih.2.2 _ _ h.2]

/-- Conclude a propositional equality of Python values from a `pyBeq` check. -/
theorem pyEq_of_beq (n : Nat) (a b : PyValue) (h : pyBeq n a b = true) : a = b :=
  (pyBeq_sound n).1 a b h

/-- A `true` answer from `exceptPyBeq` is sound. -/
theorem exceptEq_of_beq (n : Nat) (x y : Except PyExc PyValue) (h : exceptPyBeq n x y = true) :
    x = y := by
  cases x <;> cases y <;> simp_all [exceptPyBeq]
  exact pyEq_of_beq n _ _ h

/-- A `true` answer from `optionPyBeq` is sound. -/
theorem optionEq_of_beq (n : Nat) (x y : Option PyValue) (h : optionPyBeq n x y = true) :
    x = y := by
  cases x <;> cases y <;> simp_all [optionPyBeq]
  exact pyEq_of_beq n _ _ h

/-- Looking a key up in an appended association list. -/
theorem colLookup_append (c : String) (xs ys : List (String × List PyValue)) :
    colLookup c (xs ++ ys) =
      match colLookup c xs with
      | some v => some v
      | Option.none => colLookup c ys := by
  induction xs with
  | nil => simp [colLookup]
  | cons p rest ih => by_cases h : p.1 = c <;> simp [colLookup, h, ih]

/-- Overwriting a column and then reading it back. -/
theorem colLookup_replace_self (name : String) (vals : List PyValue)
    (xs : List (String × List PyValue)) :
    colLookup name (xs.map (fun p => if p.1 = name then (p.1, vals) else p)) =
      if (colLookup name xs).isSome then some vals else Option.none := by
  induction xs with
  | nil => simp [colLookup]
  | cons p rest ih => by_cases h : p.1 = name <;> simp [colLookup, h, ih]

/-- Overwriting a column leaves lookups of other names unchanged. -/
theorem colLookup_replace_ne (name c : String) (h : c ≠ name) (vals : List PyValue)
    (xs : List (String × List PyValue)) :
    colLookup c (xs.map (fun p => if p.1 = name then (p.1, vals) else p)) = colLookup c xs := by
  have h4 : ¬ (name = c) := fun hh => h hh.symm
  induction xs with
  | nil => simp
  | cons p rest ih =>
    by_cases h2 : p.1 = name
    · have h3 : ¬ (p.1 = c) := by rw [h2]; exact h4
      simp [colLookup, h2, h3, h4, ih]
    · by_cases h3 : p.1 = c <;> simp [colLookup, h2, h3, h4, h, ih]

/-- Overwriting a column does not change the label list. -/
theorem map_fst_replace (name : String) (vals : List PyValue)
    (xs : List (String × List PyValue)) :
    (xs.map (fun p => if p.1 = name then (p.1, vals) else p)).map Prod.fst = xs.map Prod.fst := by
  induction xs with
  | nil => rfl
  | cons p rest ih => by_cases h : p.1 = name <;> simp [h, ih]

/-- `hasCol` unfolded. -/
theorem hasCol_eq_isSome (df : DataFrame) (name : String) :
    df.hasCol name = (colLookup name df.cols).isSome := rfl

/-- Reading back a column just assigned. -/
theorem getCol_setCol_self (df : DataFrame) (name : String) (vals : List PyValue) :
    (df.setCol name vals).getCol name = some vals := by
  unfold DataFrame.setCol
  cases h : df.hasCol name with
  | true =>
    rw [hasCol_eq_isSome] at h
    simp [DataFrame.getCol, colLookup_replace_self, h]
  | false =>
    rw [hasCol_eq_isSome] at h
    simp only [Bool.false_eq_true, if_false, DataFrame.getCol, colLookup_append]
    cases hcc : colLookup name df.cols with
    | some v => rw [hcc] at h; cases h
    | none => simp [colLookup]

/-- Assigning one column leaves every other column unchanged. -/
theorem getCol_setCol_ne (df : DataFrame) (name c : String) (vals : List PyValue) (h : c ≠ name) :
    (df.setCol name vals).getCol c = df.getCol c := by
  have h4 : ¬ (name = c) := fun hh => h hh.symm
  unfold DataFrame.setCol
  cases hh : df.hasCol name with
  | true => simp [DataFrame.getCol, colLookup_replace_ne name c h]
  | false =>
    simp only [Bool.false_eq_true, if_false, DataFrame.getCol, colLookup_append]
    cases hc : colLookup c df.cols <;> simp [colLookup, h4]

/-- Column labels are unchanged by an overwrite. -/
theorem colNames_setCol_over (df : DataFrame) (name : String) (vals : List PyValue)
    (h : df.hasCol name = true) : (df.setCol name vals).colNames = df.colNames := by
  unfold DataFrame.setCol
  rw [if_pos h]
  exact map_fst_replace name vals df.cols

/-- Assigning a fresh column appends its label. -/
theorem colNames_setCol_new (df : DataFrame) (name : String) (vals : List PyValue)
    (h : df.hasCol name = false) : (df.setCol name vals).colNames = df.colNames ++ [name] := by
  unfold DataFrame.setCol
  rw [if_neg (by simp [h])]
  show (df.cols ++ [(name, vals)]).map Prod.fst = df.cols.map Prod.fst ++ [name]
  simp

/-- An existing label survives any assignment. -/
theorem mem_colNames_setCol (df : DataFrame) (name c : String) (vals : List PyValue)
    (h : c ∈ df.colNames) : c ∈ (df.setCol name vals).colNames := by
  cases hh : df.hasCol name with
  | true => rw [colNames_setCol_over df name vals hh]; exact h
  | false => rw [colNames_setCol_new df name vals hh]; exact List.mem_append_left _ h

/-- A label is present exactly when `hasCol` says so. -/
theorem hasCol_iff_mem (df : DataFrame) (c : String) :
    df.hasCol c = true ↔ c ∈ df.colNames := by
  rw [hasCol_eq_isSome]
  unfold DataFrame.colNames
  induction df.cols with
  | nil => simp [colLookup]
  | cons p rest ih =>
    by_cases h : p.1 = c
    · simp [colLookup, h]
    · have h2 : ¬ (c = p.1) := fun hh => h hh.symm
      simp [colLookup, h, h2, ih]

/-- A successful `apply` produces one output cell per input cell. -/
theorem exceptMapM_length (f : PyValue → Except PyExc PyValue) :
    ∀ (xs ys : List PyValue), exceptMapM f xs = .ok ys → ys.length = xs.length := by
  intro xs
  induction xs with
  | nil =>
    intro ys h
    simp only [exceptMapM] at h
    cases h
    rfl
  | cons x rest ih =>
    intro ys h
    simp only [exceptMapM] at h
    split at h
    · cases h
    · split at h
      · cases h
      · cases h
        simp only [List.length_cons]
        rw [ih _ (by assumption)]

/-- When the per-cell function never raises, neither does the column
traversal. -/
theorem exceptMapM_total (f : PyValue → Except PyExc PyValue)
    (hf : ∀ x, ∃ y, f x = .ok y) :
    ∀ xs : List PyValue, ∃ ys, exceptMapM f xs = .ok ys := by
  intro xs
  induction xs with
  | nil => exact ⟨[], rfl⟩
  | cons x rest ih =>
    obtain ⟨y, hy⟩ := hf x
    obtain ⟨ys, hys⟩ := ih
    exact ⟨y :: ys, by simp [exceptMapM, hy, hys]⟩

/-- The two possible successful outcomes of the extraction pattern: the
guard failed and the table is untouched, or the derived column was
assigned. -/
theorem applyExtract_cases (df : DataFrame) (src dst : String)
    (f : PyValue → Except PyExc PyValue) (df2 : DataFrame)
    (h : applyExtract df src dst f = .ok df2) :
    df2 = df ∨
      ∃ vals, exceptMapM f ((df.getCol src).getD []) = .ok vals ∧ df2 = df.setCol dst vals := by
  unfold applyExtract at h
  cases hh : df.hasCol src with
  | false =>
    rw [hh] at h
    simp only [Bool.false_eq_true, if_false] at h
    cases h
    exact Or.inl rfl
  | true =>
    rw [hh] at h
    simp only [if_true] at h
    split at h
    · cases h
    · cases h
      exact Or.inr ⟨_, by assumption, rfl⟩

/-- When the guard holds and the per-cell function never raises, the
extraction succeeds and assigns the mapped column. -/
theorem applyExtract_ok (df : DataFrame) (src dst : String)
    (f : PyValue → Except PyExc PyValue) (hsrc : df.hasCol src = true)
    (vals : List PyValue) (hm : exceptMapM f ((df.getCol src).getD []) = .ok vals) :
    applyExtract df src dst f = .ok (df.setCol dst vals) := by
  unfold applyExtract
  rw [hsrc]
  simp [hm]

/-- Extraction never removes a column and touches only the derived one. -/
theorem applyExtract_frame (df : DataFrame) (src dst : String)
    (f : PyValue → Except PyExc PyValue) (df2 : DataFrame)
    (h : applyExtract df src dst f = .ok df2) :
    (∀ c, c ∈ df.colNames → c ∈ df2.colNames) ∧
    (∀ c, c ≠ dst → df2.getCol c = df.getCol c) := by
  rcases applyExtract_cases df src dst f df2 h with rfl | ⟨vals, _, rfl⟩
  · exact ⟨fun c hc => hc, fun c _ => rfl⟩
  · exact ⟨fun c hc => mem_colNames_setCol df dst c vals hc,
      fun c hc => getCol_setCol_ne df dst c vals hc⟩

/-- The two possible outcomes of the time-series section: nothing (guard
failed or `to_datetime` raised and was caught) or the in-place overwrite of
`BOOKING_DATE`. -/
theorem timeSeriesStep_cases (df : DataFrame) :
    timeSeriesStep df = df ∨
      ∃ vals, timeSeriesStep df = df.setCol "BOOKING_DATE" vals := by
  unfold timeSeriesStep
  cases h : (df.hasCol "AMOUNT" && df.hasCol "BOOKING_DATE") with
  | false => simp
  | true =>
    simp only [if_true]
    cases hm : exceptMapM to_datetime_cell ((df.getCol "BOOKING_DATE").getD []) with
    | error e => exact Or.inl rfl
    | ok vals => exact Or.inr ⟨vals, rfl⟩

/-- Rectangularity, unfolded. -/
theorem rectangular_iff (df : DataFrame) :
    df.rectangular = true ↔ ∀ p ∈ df.cols, p.2.length = df.nRows := by
  unfold DataFrame.rectangular
  simp [List.all_eq_true]

/-- Any column of the table after an assignment is the assigned one or one
of the old columns. -/
theorem setCol_cols_mem (df : DataFrame) (name : String) (vals : List PyValue) :
    ∀ q ∈ (df.setCol name vals).cols, q.2 = vals ∨ q ∈ df.cols := by
  intro q hq
  unfold DataFrame.setCol at hq
  cases h : df.hasCol name with
  | true =>
    rw [h] at hq
    simp only [if_true, List.mem_map] at hq
    obtain ⟨p, hp, hpe⟩ := hq
    by_cases h2 : p.1 = name
    · rw [if_pos h2] at hpe
      exact Or.inl (by rw [← hpe])
    · rw [if_neg h2] at hpe
      exact Or.inr (hpe ▸ hp)
  | false =>
    rw [h] at hq
    simp only [Bool.false_eq_true, if_false, List.mem_append, List.mem_singleton] at hq
    rcases hq with hq | hq
    · exact Or.inr hq
    · exact Or.inl (by rw [hq])

/-- A non-empty table keeps its row count under an assignment of the right
length. -/
theorem nRows_setCol (df : DataFrame) (name : String) (vals : List PyValue)
    (hne : df.cols ≠ []) (hlen : vals.length = df.nRows) :
    (df.setCol name vals).nRows = df.nRows := by
  unfold DataFrame.setCol
  cases hc : df.cols with
  | nil => exact absurd hc hne
  | cons p rest =>
    cases h : df.hasCol name with
    | true =>
      simp only [if_true]
      by_cases h2 : p.1 = name
      · simp only [DataFrame.nRows, hc, List.map_cons, if_pos h2]
        rw [hlen]
        simp [DataFrame.nRows, hc]
      · simp only [DataFrame.nRows, hc, List.map_cons, if_neg h2]
    | false =>
      simp only [Bool.false_eq_true, if_false]
      simp [DataFrame.nRows, hc]

/-- A table with a column is non-empty. -/
theorem cols_ne_nil_of_hasCol (df : DataFrame) (c : String) (h : df.hasCol c = true) :
    df.cols ≠ [] := by
  intro hnil
  rw [hasCol_eq_isSome, hnil] at h
  simp [colLookup] at h

/-- An assignment of a column with one entry per row keeps the table
rectangular. -/
theorem rectangular_setCol (df : DataFrame) (name : String) (vals : List PyValue)
    (hrect : df.rectangular = true) (hne : df.cols ≠ [])
    (hlen : vals.length = df.nRows) :
    (df.setCol name vals).rectangular = true := by
  rw [rectangular_iff] at hrect ⊢
  intro q hq
  rw [nRows_setCol df name vals hne hlen]
  rcases setCol_cols_mem df name vals q hq with h | h
  · rw [h, hlen]
  · exact hrect q h

/-- A successful column read names an actual column. -/
theorem getCol_mem (df : DataFrame) (c : String) (v : List PyValue)
    (h : df.getCol c = some v) : (c, v) ∈ df.cols := by
  obtain ⟨cols⟩ := df
  unfold DataFrame.getCol at h
  induction cols with
  | nil => cases h
  | cons p rest ih =>
    obtain ⟨a, b⟩ := p
    by_cases h2 : a = c
    · subst h2
      simp only [colLookup, if_pos rfl] at h
      cases h
      exact List.mem_cons_self _ _
    · simp only [colLookup] at h
      rw [if_neg h2] at h
      exact List.mem_cons_of_mem _ (ih h)

/-- In a rectangular table every column read has one entry per row. -/
theorem getCol_length_of_rect (df : DataFrame) (c : String) (v : List PyValue)
    (hrect : df.rectangular = true) (h : df.getCol c = some v) : v.length = df.nRows :=
  (rectangular_iff df).mp hrect (c, v) (getCol_mem df c v h)

/-- The labels of an assembled table are exactly the header. -/
theorem buildDf_colNames (hdr : List String) (rows : List (List String)) :
    (buildDf hdr rows).colNames = hdr := by
  unfold buildDf DataFrame.colNames
  rw [List.map_map]
  have hcomp :
      (Prod.fst ∘ fun p : Nat × String =>
        (p.2, rows.map (fun r => PyValue.str (r.getD p.1 "")))) = Prod.snd := by
    funext p
    rfl
  rw [hcomp, List.enum_map_snd]

/-- The row count of an assembled table is the number of kept rows. -/
theorem buildDf_nRows (hdr : List String) (rows : List (List String)) (h : hdr ≠ []) :
    (buildDf hdr rows).nRows = rows.length := by
  cases hdr with
  | nil => exact absurd rfl h
  | cons a rest =>
    unfold buildDf DataFrame.nRows
    simp [List.enum]

/-- An assembled table is rectangular. -/
theorem buildDf_rectangular (hdr : List String) (rows : List (List String)) :
    (buildDf hdr rows).rectangular = true := by
  rw [rectangular_iff]
  intro p hp
  unfold buildDf at hp
  simp only [List.mem_map] at hp
  obtain ⟨q, hq, hqe⟩ := hp
  cases hdr with
  | nil => simp at hq
  | cons a rest =>
    rw [← hqe, buildDf_nRows (a :: rest) rows (by simp)]
    simp

/-- A parsed CSV record always has at least one field. -/
theorem csvRecord_ne_nil (fuel : Nat) (cs : List Char) (r : List String) (rest : List Char)
    (h : csvRecord fuel cs = .ok (r, rest)) : r ≠ [] := by
  cases fuel with
  | zero => cases h
  | succ n =>
    simp only [csvRecord] at h
    split at h
    · cases h
    · split at h
      · split at h
        · cases h
        · cases h
          simp
      · cases h
        simp

/-- Every record of a parsed CSV file has at least one field. -/
theorem csvRecords_ne_nil (fuel : Nat) : ∀ (cs : List Char) (recs : List (List String)),
    csvRecords fuel cs = .ok recs → ∀ r ∈ recs, r ≠ [] := by
  induction fuel with
  | zero =>
    intro cs recs h
    cases h
  | succ n ih =>
    intro cs recs h
    simp only [csvRecords] at h
    split at h
    · cases h
      intro r hr
      cases hr
    · split at h
      · cases h
      · split at h
        · cases h
        · cases h
          intro r hr
          rcases List.mem_cons.mp hr with rfl | hr2
          · exact csvRecord_ne_nil _ _ _ _ (by assumption)
          · exact ih _ _ (by assumption) r hr2

/-- The encoding is injective. -/
theorem dfEncode_inj (a b : DataFrame) (h : dfEncode a = dfEncode b) : a = b := by
  obtain ⟨xs⟩ := a
  obtain ⟨ys⟩ := b
  simp only [dfEncode, PyValue.dict.injEq] at h
  congr 1
  induction xs generalizing ys with
  | nil =>
    cases ys with
    | nil => rfl
    | cons q qs => simp only [List.map_nil, List.map_cons] at h; cases h
  | cons p ps ih =>
    cases ys with
    | nil => simp only [List.map_nil, List.map_cons] at h; cases h
    | cons q qs =>
      obtain ⟨k, v⟩ := p
      obtain ⟨k2, v2⟩ := q
      simp only [List.map_cons, List.cons.injEq, Prod.mk.injEq, PyValue.list.injEq] at h
      obtain ⟨⟨h1, h2⟩, h3⟩ := h
      rw [h1, h2, ih qs h3]

/-- A `true` answer from `exceptDfBeq` is sound. -/
theorem exceptDfEq_of_beq (n : Nat) (x y : Except PyExc DataFrame)
    (h : exceptDfBeq n x y = true) : x = y := by
  cases x <;> cases y <;> simp_all [exceptDfBeq]
  exact dfEncode_inj _ _ (pyEq_of_beq n _ _ h)

/-- A `true` answer from `optionColBeq` is sound. -/
theorem optionColEq_of_beq (n : Nat) (x y : Option (List PyValue))
    (h : optionColBeq n x y = true) : x = y := by
  cases x <;> cases y <;> simp_all [optionColBeq]
  exact (pyBeq_sound n).2.1 _ _ h

/-- `json.loads` only raises exception classes that the extraction helpers
catch. -/
theorem json_loads_error_caught (v : PyValue) (e : PyExc) (h : json_loads v = .error e) :
    jsonCaught e = true := by
  cases v with
  | str s =>
    simp only [json_loads] at h
    cases hj : jsonParse s with
    | some x => rw [hj] at h; cases h
    | none => rw [hj] at h; cases h; rfl
  | none => simp only [json_loads] at h; cases h; rfl
  | nan => simp only [json_loads] at h; cases h; rfl
  | bool b => simp only [json_loads] at h; cases h; rfl
  | num q => simp only [json_loads] at h; cases h; rfl
  | timestamp s => simp only [json_loads] at h; cases h; rfl
  | list xs => simp only [json_loads] at h; cases h; rfl
  | dict flds => simp only [json_loads] at h; cases h; rfl

/-- When the cell does not yield the field, the try/except extraction
returns the caller's default. -/
theorem extract_default_of_missing (field : String) (d v : PyValue)
    (h : fieldMissing field v = true) :
    tryExcept (extractBody field d v) jsonCaught d = .ok d := by
  unfold fieldMissing at h
  unfold tryExcept extractBody
  cases hj : json_loads v with
  | error e => simp [json_loads_error_caught v e hj]
  | ok j =>
    rw [hj] at h
    cases j <;> simp_all [pyGet, jsonCaught, Option.isNone_iff_eq_none]

/-- When the cell decodes to an object containing the field, the try/except
extraction returns the field's decoded value unchanged. -/
theorem extract_value_of_present (field : String) (d v x : PyValue)
    (h : decodedField field v = some x) :
    tryExcept (extractBody field d v) jsonCaught d = .ok x := by
  unfold decodedField at h
  unfold tryExcept extractBody
  cases hj : json_loads v with
  | error e => rw [hj] at h; cases h
  | ok j =>
    rw [hj] at h
    cases j <;> simp_all [pyGet]

/-- The try/except extraction never lets an exception escape. -/
theorem extract_total (field : String) (d v : PyValue) :
    ∃ r, tryExcept (extractBody field d v) jsonCaught d = .ok r := by
  unfold tryExcept extractBody
  cases hj : json_loads v with
  | error e => exact ⟨d, by simp [json_loads_error_caught v e hj]⟩
  | ok j =>
    cases j with
    | dict flds => exact ⟨(assocLast flds field).getD d, by simp [pyGet]⟩
    | none => exact ⟨d, by simp [pyGet, jsonCaught]⟩
    | nan => exact ⟨d, by simp [pyGet, jsonCaught]⟩
    | bool b => exact ⟨d, by simp [pyGet, jsonCaught]⟩
    | num q => exact ⟨d, by simp [pyGet, jsonCaught]⟩
    | str s => exact ⟨d, by simp [pyGet, jsonCaught]⟩
    | timestamp s => exact ⟨d, by simp [pyGet, jsonCaught]⟩
    | list xs => exact ⟨d, by simp [pyGet, jsonCaught]⟩

/-- When the per-cell function never raises, the extraction pattern never
raises. -/
theorem applyExtract_total (df : DataFrame) (src dst : String)
    (f : PyValue → Except PyExc PyValue) (hf : ∀ x, ∃ y, f x = .ok y) :
    ∃ df2, applyExtract df src dst f = .ok df2 := by
  unfold applyExtract
  cases h : df.hasCol src with
  | false => exact ⟨df, by simp⟩
  | true =>
    obtain ⟨ys, hys⟩ := exceptMapM_total f hf ((df.getCol src).getD [])
    exact ⟨df.setCol dst ys, by simp [hys]⟩

/-- The time-series section never removes a column and touches only
`BOOKING_DATE`. -/
theorem timeSeriesStep_frame (df : DataFrame) :
    (∀ c, c ∈ df.colNames → c ∈ (timeSeriesStep df).colNames) ∧
    (∀ c, c ≠ "BOOKING_DATE" → (timeSeriesStep df).getCol c = df.getCol c) := by
  rcases timeSeriesStep_cases df with h | ⟨vals, h⟩
  · rw [h]
    exact ⟨fun c hc => hc, fun c _ => rfl⟩
  · rw [h]
    exact ⟨fun c hc => mem_colNames_setCol df _ c vals hc,
      fun c hc => getCol_setCol_ne df _ c vals hc⟩

/-- C1: for every cell whose text is invalid JSON, or which is absent/null
(a non-string cell), or whose decoded value lacks the target field
(including a decoded bare number, array, or other non-key-addressable
value), `parse_json_column` returns exactly its default `None` and
`parse_unnamed_7` returns exactly its default `"Unknown"`. -/
theorem c1_default_on_failure (v : PyValue) :
    (fieldMissing "total_balance" v = true → parse_json_column v = .ok PyValue.none) ∧
    (fieldMissing "card_acceptor" v = true → parse_unnamed_7 v = .ok (PyValue.str "Unknown")) :=
  ⟨fun h => extract_default_of_missing "total_balance" PyValue.none v h,
   fun h => extract_default_of_missing "card_acceptor" (PyValue.str "Unknown") v h⟩

/-- C1 witness: the spec's scenario cells — `not json` yields `None` and
the empty object yields `"Unknown"`. -/
theorem c1_default_on_failure_witness :
    parse_json_column (PyValue.str "not json") = .ok PyValue.none ∧
    parse_unnamed_7 (PyValue.str "\x7b\x7d") = .ok (PyValue.str "Unknown") :=
  ⟨(c1_default_on_failure (PyValue.str "not json")).1 (by decide),
   (c1_default_on_failure (PyValue.str "\x7b\x7d")).2 (by decide)⟩

/-- C2: for every cell that is valid JSON text decoding to an object
containing the target field, the extraction returns that field's decoded
value unchanged; in particular the cell with `total_balance` 150.5 yields
exactly the number 150.5. -/
theorem c2_present_field_passthrough (v x : PyValue) :
    (decodedField "total_balance" v = some x → parse_json_column v = .ok x) ∧
    (decodedField "card_acceptor" v = some x → parse_unnamed_7 v = .ok x) ∧
    parse_json_column (PyValue.str "\x7b\"total_balance\": 150.5\x7d") =
      .ok (PyValue.num (mkRat 301 2)) :=
  ⟨fun h => extract_value_of_present "total_balance" PyValue.none v x h,
   fun h => extract_value_of_present "card_acceptor" (PyValue.str "Unknown") v x h,
   exceptEq_of_beq 100 _ _ (by decide)⟩

/-- C2 witness: the 150.5 scenario and a concrete `card_acceptor`. -/
theorem c2_present_field_passthrough_witness :
    parse_json_column (PyValue.str "\x7b\"total_balance\": 150.5\x7d") =
      .ok (PyValue.num (mkRat 301 2)) ∧
    parse_unnamed_7 (PyValue.str "\x7b\"card_acceptor\": \"Shop\"\x7d") =
      .ok (PyValue.str "Shop") :=
  ⟨(c2_present_field_passthrough (PyValue.str "\x7b\"total_balance\": 150.5\x7d")
      (PyValue.num (mkRat 301 2))).1 (optionEq_of_beq 100 _ _ (by decide)),
   (c2_present_field_passthrough (PyValue.str "\x7b\"card_acceptor\": \"Shop\"\x7d")
      (PyValue.str "Shop")).2.1 (optionEq_of_beq 100 _ _ (by decide))⟩

/-- C3: on every possible cell value the per-cell extraction functions
return a value rather than raising, and the module-level extraction steps
succeed on every table: no error surfaces to the caller. -/
theorem c3_extraction_total :
    (∀ v : PyValue, ∃ r, parse_json_column v = .ok r) ∧
    (∀ v : PyValue, ∃ r, parse_unnamed_7 v = .ok r) ∧
    (∀ df : DataFrame, ∃ df2, extractTotalBalance df = .ok df2) ∧
    (∀ df : DataFrame, ∃ df2, extractCardAcceptor df = .ok df2) :=
  ⟨fun v => extract_total "total_balance" PyValue.none v,
   fun v => extract_total "card_acceptor" (PyValue.str "Unknown") v,
   fun df => applyExtract_total df "POST_TRANSACTION_ACCOUNT_BALANCES" "total_balance"
     parse_json_column (fun x => extract_total "total_balance" PyValue.none x),
   fun df => applyExtract_total df "Unnamed: 7" "card_acceptor"
     parse_unnamed_7 (fun x => extract_total "card_acceptor" (PyValue.str "Unknown") x)⟩

/-- C4: a missing file makes `load_data` return no table together with the
user-visible diagnostic, without raising; the whole run then ends in the
no-data terminal display state, also without raising. -/
theorem c4_missing_file_terminal :
    load_data FileData.missing = .ok (Option.none, ["CSV file not found."]) ∧
    appRun FileData.missing =
      .ok (Option.none, ["CSV file not found.",
        "No data loaded. Please ensure the CSV file is in the directory and named correctly."]) :=
  ⟨rfl, rfl⟩

/-- C5 counterexample: a file whose bytes do not decode (an encoding
failure, which the spec lists under the Malformed outcome) makes
`load_data` re-raise `UnicodeDecodeError` instead of reporting and
returning no table: only `FileNotFoundError` and `pandas.errors.ParserError`
are caught. -/
theorem c5_counterexample :
    load_data FileData.badEncoding = .error PyExc.unicodeDecodeError := rfl

/-- C5 amended: for every file on which the CSV engine raises a
`pandas.errors.ParserError` (a file whose delimited-text structure cannot
be parsed), `load_data` reports the cause text to the user and returns no
table instead of raising; an encoding failure, however, is not caught and
propagates. -/
theorem c5_malformed_amended (fd : FileData) (m : String)
    (h : read_csv fd = .error (.parserError m)) :
    load_data fd = .ok (Option.none, ["ParserError: " ++ m]) := by
  unfold load_data
  rw [h]

/-- C5 witness: a file with an unterminated quoted field is reported. -/
theorem c5_malformed_amended_witness :
    load_data (FileData.text "A,B\n\"x,2\n") =
      .ok (Option.none, ["ParserError: " ++ "EOF inside string"]) :=
  c5_malformed_amended (FileData.text "A,B\n\"x,2\n") "EOF inside string" rfl

/-- C6 counterexample: the run does not only append derived columns — the
time-series section overwrites the values of the existing `BOOKING_DATE`
column in place, replacing its text cells by datetime values. -/
theorem c6_counterexample :
    transformPipeline dfC6 = .ok dfC6res ∧
    dfC6.getCol "BOOKING_DATE" = some [PyValue.str "2021-01-01"] ∧
    dfC6res.getCol "BOOKING_DATE" = some [PyValue.timestamp "2021-01-01"] ∧
    PyValue.timestamp "2021-01-01" ≠ PyValue.str "2021-01-01" :=
  ⟨exceptDfEq_of_beq 100 _ _ (by decide), rfl, rfl, by simp⟩

/-- C6 amended: after loading, no column is ever removed or renamed, and
every column other than `BOOKING_DATE` (overwritten in place by its
datetime conversion) and the derived names `total_balance`,
`card_acceptor`, `Amount_Type` keeps its values unchanged through the whole
run. -/
theorem c6_append_only_amended (df df2 : DataFrame)
    (h : transformPipeline df = .ok df2) (c : String) (hc : c ∈ df.colNames) :
    c ∈ df2.colNames ∧
    (c ≠ "BOOKING_DATE" → c ≠ "total_balance" → c ≠ "card_acceptor" → c ≠ "Amount_Type" →
      df2.getCol c = df.getCol c) := by
  unfold transformPipeline at h
  cases h1 : extractTotalBalance df with
  | error e => rw [h1] at h; cases h
  | ok df1 =>
    rw [h1] at h
    dsimp only at h
    cases h2 : extractCardAcceptor df1 with
    | error e => rw [h2] at h; cases h
    | ok dfb =>
      rw [h2] at h
      dsimp only at h
      obtain ⟨hm1, hg1⟩ := applyExtract_frame df _ _ _ df1 h1
      obtain ⟨hm2, hg2⟩ := applyExtract_frame df1 _ _ _ dfb h2
      obtain ⟨hm3, hg3⟩ := timeSeriesStep_frame dfb
      obtain ⟨hm4, hg4⟩ := applyExtract_frame (timeSeriesStep dfb) _ _ _ df2 h
      constructor
      · exact hm4 c (hm3 c (hm2 c (hm1 c hc)))
      · intro hbd htb hca hat
        rw [hg4 c hat, hg3 c hbd, hg2 c hca, hg1 c htb]

/-- C6 witness: on the concrete run the `AMOUNT` column survives with its
values intact. -/
theorem c6_append_only_amended_witness :
    "AMOUNT" ∈ dfC6res.colNames ∧ dfC6res.getCol "AMOUNT" = dfC6.getCol "AMOUNT" := by
  obtain ⟨h1, h2⟩ := c6_append_only_amended dfC6 dfC6res
    (exceptDfEq_of_beq 100 _ _ (by decide)) "AMOUNT" (by decide)
  exact ⟨h1, h2 (by decide) (by decide) (by decide) (by decide)⟩

/-- C7: on every file whose records parse, `load_data` returns a table
whose column names are exactly the header record (in file order) and whose
row count is the number of data rows conforming to the header's column
count, nonconforming rows being skipped individually; the 3-row scenario
file with a malformed row 2 yields a 2-row table with header columns. -/
theorem c7_load_row_count (s : String) (recs rows : List (List String)) (hdr : List String)
    (hrecs : csvRecords (s.data.length + 2) s.data = .ok recs)
    (hsplit : recs.filter (fun r => ! blankRecord r) = hdr :: rows) :
    (load_data (FileData.text s) =
      .ok (some (buildDf hdr (rows.filter (fun r => r.length == hdr.length))), []) ∧
     (buildDf hdr (rows.filter (fun r => r.length == hdr.length))).colNames = hdr ∧
     (buildDf hdr (rows.filter (fun r => r.length == hdr.length))).nRows =
       (rows.filter (fun r => r.length == hdr.length)).length ∧
     (buildDf hdr (rows.filter (fun r => r.length == hdr.length))).rectangular = true) ∧
    (load_data (FileData.text "A,B\n1,2\n3,4,5\n6,7\n") =
      .ok (some (buildDf ["A", "B"] [["1", "2"], ["6", "7"]]), []) ∧
     (buildDf ["A", "B"] [["1", "2"], ["6", "7"]]).colNames = ["A", "B"] ∧
     (buildDf ["A", "B"] [["1", "2"], ["6", "7"]]).nRows = 2) := by
  constructor
  · have hread : read_csv (FileData.text s) =
        .ok (buildDf hdr (rows.filter (fun r => r.length == hdr.length))) := by
      unfold read_csv
      dsimp only
      rw [hrecs]
      dsimp only
      rw [hsplit]
    have hne : hdr ≠ [] := by
      have hmem : hdr ∈ recs := by
        have hmem2 : hdr ∈ recs.filter (fun r => ! blankRecord r) := by
          rw [hsplit]
          exact List.mem_cons_self _ _
        exact List.mem_of_mem_filter hmem2
      exact csvRecords_ne_nil _ _ _ hrecs hdr hmem
    refine ⟨?_, buildDf_colNames hdr _, buildDf_nRows hdr _ hne, buildDf_rectangular hdr _⟩
    unfold load_data
    rw [hread]
  · exact ⟨rfl, rfl, rfl⟩

/-- C7 witness: the scenario file, with its records and header made
explicit. -/
theorem c7_load_row_count_witness :
    load_data (FileData.text "A,B\n1,2\n3,4,5\n6,7\n") =
      .ok (some (buildDf ["A", "B"]
        ([["1", "2"], ["3", "4", "5"], ["6", "7"]].filter
          (fun r => r.length == (["A", "B"] : List String).length))), []) ∧
    (buildDf ["A", "B"]
      ([["1", "2"], ["3", "4", "5"], ["6", "7"]].filter
        (fun r => r.length == (["A", "B"] : List String).length))).colNames = ["A", "B"] ∧
    (buildDf ["A", "B"]
      ([["1", "2"], ["3", "4", "5"], ["6", "7"]].filter
        (fun r => r.length == (["A", "B"] : List String).length))).nRows =
      ([["1", "2"], ["3", "4", "5"], ["6", "7"]].filter
        (fun r => r.length == (["A", "B"] : List String).length)).length := by
  obtain ⟨⟨h1, h2, h3, _⟩, _⟩ := c7_load_row_count "A,B\n1,2\n3,4,5\n6,7\n"
    [["A", "B"], ["1", "2"], ["3", "4", "5"], ["6", "7"]]
    [["1", "2"], ["3", "4", "5"], ["6", "7"]] ["A", "B"] rfl rfl
  exact ⟨h1, h2, h3⟩

/-- C8: a successful extraction returns the same table with exactly one
additional column (the label list is unchanged when the derived name
already existed, extended by exactly that name otherwise), holding one
extracted entry per source-column row; every other column is read back
unchanged, and a rectangular table stays rectangular. -/
theorem c8_extract_frame (df : DataFrame) (src dst : String)
    (f : PyValue → Except PyExc PyValue) (df2 : DataFrame)
    (h : applyExtract df src dst f = .ok df2) (hsrc : df.hasCol src = true) :
    (df2.colNames = if df.hasCol dst then df.colNames else df.colNames ++ [dst]) ∧
    (∀ c, c ≠ dst → df2.getCol c = df.getCol c) ∧
    (∃ vals, df2.getCol dst = some vals ∧
      vals.length = ((df.getCol src).getD []).length) ∧
    (df.rectangular = true → df2.rectangular = true) := by
  unfold applyExtract at h
  rw [hsrc] at h
  simp only [if_true] at h
  cases hm : exceptMapM f ((df.getCol src).getD []) with
  | error e => rw [hm] at h; cases h
  | ok vals =>
    rw [hm] at h
    cases h
    refine ⟨?_, ?_, ?_, ?_⟩
    · cases hd : df.hasCol dst with
      | true => rw [colNames_setCol_over df dst vals hd]; simp
      | false => rw [colNames_setCol_new df dst vals hd]; simp
    · exact fun c hc => getCol_setCol_ne df dst c vals hc
    · exact ⟨vals, getCol_setCol_self df dst vals, exceptMapM_length f _ _ hm⟩
    · intro hrect
      have hne := cols_ne_nil_of_hasCol df src hsrc
      have hsome : ∃ srcv, df.getCol src = some srcv := by
        rw [hasCol_eq_isSome] at hsrc
        exact Option.isSome_iff_exists.mp hsrc
      obtain ⟨srcv, hsv⟩ := hsome
      have hlen : vals.length = df.nRows := by
        have hl1 := exceptMapM_length f _ _ hm
        rw [hsv] at hl1
        simp only [Option.getD_some] at hl1
        rw [hl1]
        exact getCol_length_of_rect df src srcv hrect hsv
      exact rectangular_setCol df dst vals hrect hne hlen

/-- C8 witness: extracting `total_balance` on a concrete two-row table
appends exactly that column, leaves the source column unchanged, and keeps
the table rectangular. -/
theorem c8_extract_frame_witness :
    dfW8res.colNames = ["POST_TRANSACTION_ACCOUNT_BALANCES", "total_balance"] ∧
    dfW8res.getCol "POST_TRANSACTION_ACCOUNT_BALANCES" =
      dfW8.getCol "POST_TRANSACTION_ACCOUNT_BALANCES" ∧
    dfW8res.rectangular = true := by
  obtain ⟨h1, h2, _, h4⟩ := c8_extract_frame dfW8 "POST_TRANSACTION_ACCOUNT_BALANCES"
    "total_balance" parse_json_column dfW8res rfl rfl
  refine ⟨?_, h2 _ (by decide), h4 rfl⟩
  rw [h1]
  rfl

/-- C9: the extraction steps are deterministic — two runs with the same
source column, field and default on the same input table produce identical
derived columns. -/
theorem c9_extract_deterministic (df df1 df2 : DataFrame) :
    (extractTotalBalance df = .ok df1 → extractTotalBalance df = .ok df2 →
      df1.getCol "total_balance" = df2.getCol "total_balance") ∧
    (extractCardAcceptor df = .ok df1 → extractCardAcceptor df = .ok df2 →
      df1.getCol "card_acceptor" = df2.getCol "card_acceptor") := by
  constructor
  · intro h1 h2
    rw [h1] at h2
    cases h2
    rfl
  · intro h1 h2
    rw [h1] at h2
    cases h2
    rfl

/-- C9 witness: both extractions run twice on a concrete table give the
same derived columns. -/
theorem c9_extract_deterministic_witness :
    dfW9a.getCol "total_balance" = dfW9a.getCol "total_balance" ∧
    dfW9b.getCol "card_acceptor" = dfW9b.getCol "card_acceptor" :=
  ⟨(c9_extract_deterministic dfW9 dfW9a dfW9a).1 rfl rfl,
   (c9_extract_deterministic dfW9 dfW9b dfW9b).2 rfl rfl⟩

/-- C10: a field that is present but bound to JSON null decodes to `None`,
not to the caller's default: the present-but-null cell for `card_acceptor`
yields `None`, which is distinguishable from `"Unknown"`. -/
theorem c10_present_null_kept (v : PyValue) :
    (decodedField "card_acceptor" v = some PyValue.none → parse_unnamed_7 v = .ok PyValue.none) ∧
    parse_unnamed_7 (PyValue.str "\x7b\"card_acceptor\": null\x7d") = .ok PyValue.none ∧
    PyValue.none ≠ PyValue.str "Unknown" :=
  ⟨fun h => extract_value_of_present "card_acceptor" (PyValue.str "Unknown") v PyValue.none h,
   exceptEq_of_beq 100 _ _ (by decide),
   by simp⟩

/-- C10 witness: the general present-field statement applied at the
concrete null-valued cell. -/
theorem c10_present_null_kept_witness :
    parse_unnamed_7 (PyValue.str "\x7b\"card_acceptor\": null\x7d") = .ok PyValue.none :=
  (c10_present_null_kept (PyValue.str "\x7b\"card_acceptor\": null\x7d")).1
    (optionEq_of_beq 100 _ _ (by decide))
